import Mathlib

/-!
Shallow embedding of the Sublime Text plugin ElixirFormatter.py.

Modelling conventions:
* Filesystem paths handed to find_project are normalized absolute POSIX
  paths, represented as the list of their components with the innermost
  component first; the empty list is the filesystem root "/".  Under this
  representation os.path.dirname is List.tail.
* The filesystem itself is a parameter: a predicate telling which
  directories contain a mix.exs file (and a second one for .formatter.exs).
* The external subprocesses (mix format, the elixir check script) are
  oracles passed in as parameters; run is a pure state transformer on an
  explicit view record plus an effect report.
* Python strings are Lean Strings; the regular expression
  SYNTAX_ERROR_RE and its search are implemented directly with the
  leftmost-then-greedy backtracking semantics of the re module, with the
  whitespace and digit classes taken in their ASCII reading.
-/

/-- Python re class \s (ASCII reading). -/
def isPySpace (c : Char) : Bool :=
  c == ' ' || c == '\t' || c == '\n' || c == '\r' || c == '\x0B' || c == '\x0C'

/-- Characters matched by the regex atom dot: anything but a newline. -/
def noNewline (g : List Char) : Bool :=
  g.all (fun c => c != '\n')

/-- All splits (take k, drop k) of a list, longest first part first:
the order in which a greedy one-or-more group tries its candidates. -/
def splitsDesc (cs : List Char) : List (List Char × List Char) :=
  ((List.range (cs.length + 1)).reverse).map (fun k => (cs.take k, cs.drop k))

/-- Dollar anchor under re.MULTILINE: end of input or just before a newline. -/
def atLineEnd (cs : List Char) : Bool :=
  match cs with
  | [] => true
  | c :: _ => c == '\n'

/-- The capture groups of a match of SYNTAX_ERROR_RE; g0 is the whole
matched text. -/
structure SyntaxErrorMatch where
  g0 : String
  g1 : String
  g2 : String
  g3 : String
  g4 : String
deriving DecidableEq

/-- Attempt to match SYNTAX_ERROR_RE, namely
the pattern STAR STAR \s \( (.+) \) \s (.+) : (\d+) : \s (.+) $,
at the current position (the caret anchor is handled by the caller).
Greedy groups try longer candidates first and backtrack, exactly as in
the re module. -/
def matchAt (cs : List Char) : Option SyntaxErrorMatch :=
  match cs with
  | '*' :: '*' :: sp1 :: '(' :: r0 =>
    if isPySpace sp1 then
      (splitsDesc r0).findSome? (fun (g1, r1) =>
        if !g1.isEmpty && noNewline g1 then
          match r1 with
          | ')' :: sp2 :: r2 =>
            if isPySpace sp2 then
              (splitsDesc r2).findSome? (fun (g2, r3) =>
                if !g2.isEmpty && noNewline g2 then
                  match r3 with
                  | ':' :: r4 =>
                    (splitsDesc r4).findSome? (fun (g3, r5) =>
                      if !g3.isEmpty && g3.all Char.isDigit then
                        match r5 with
                        | ':' :: sp3 :: r6 =>
                          if isPySpace sp3 then
                            (splitsDesc r6).findSome? (fun (g4, r7) =>
                              if !g4.isEmpty && noNewline g4 && atLineEnd r7 then
                                some ⟨('*' :: '*' :: sp1 :: '(' ::
                                        (g1 ++ ')' :: sp2 ::
                                          (g2 ++ ':' ::
                                            (g3 ++ ':' :: sp3 :: g4)))).asString,
                                      g1.asString, g2.asString,
                                      g3.asString, g4.asString⟩
                              else none)
                          else none
                        | _ => none
                      else none)
                  | _ => none
                else none)
            else none
          | _ => none
        else none)
    else none
  | _ => none

/-- Scan left to right; the caret anchor under re.MULTILINE admits a match
only at the start of the input or right after a newline. -/
def searchAux : Bool → List Char → Option SyntaxErrorMatch
  | _, [] => none
  | lineStart, c :: rest =>
    match (if lineStart then matchAt (c :: rest) else none) with
    | some m => some m
    | none => searchAux (c == '\n') rest

/-- SYNTAX_ERROR_RE.search: the leftmost match of the structured
mix format error line in the given text, if any. -/
def SYNTAX_ERROR_RE_search (s : String) : Option SyntaxErrorMatch :=
  searchAux true s.data

/-- Python int on a string of decimal digits. -/
def digitsToNat (s : String) : Nat :=
  s.data.foldl (fun a c => a * 10 + (c.toNat - 48)) 0

def PLUGIN_NAME : String := "ElixirFormatter"

def PLUGIN_CMD_NAME : String := "elixir_formatter_format_file"

namespace Utils

/-- Utils.trim_trailing_ws_and_lines: re.sub removing the maximal run of
trailing whitespace (the None passthrough of the source is irrelevant
here since every call site passes a string). -/
def trim_trailing_ws_and_lines (val : String) : String :=
  ((val.data.reverse.dropWhile isPySpace).reverse).asString

end Utils

/-- MixFormatError: wraps the stderr text; the match object computed in
the constructor is recovered from the text by matchesRE below. -/
structure MixFormatError where
  text : String
deriving DecidableEq

namespace MixFormatError

/-- self.__matches = SYNTAX_ERROR_RE.search(text). -/
def matchesRE (e : MixFormatError) : Option SyntaxErrorMatch :=
  SYNTAX_ERROR_RE_search e.text

/-- full_message: group 0 of the match; none models the AttributeError
raised in Python when the search found no match. -/
def full_message (e : MixFormatError) : Option String :=
  e.matchesRE.map (fun m => m.g0)

/-- exception: capture group 1. -/
def exception (e : MixFormatError) : Option String :=
  e.matchesRE.map (fun m => m.g1)

/-- line: int(capture group 3). -/
def line (e : MixFormatError) : Option Int :=
  e.matchesRE.map (fun m => (digitsToNat m.g3 : Int))

/-- reason: capture group 4. -/
def reason (e : MixFormatError) : Option String :=
  e.matchesRE.map (fun m => m.g4)

/-- status_message: "exception - reason". -/
def status_message (e : MixFormatError) : Option String :=
  e.matchesRE.map (fun m => m.g1 ++ " - " ++ m.g4)

end MixFormatError

/-- MixFormatResult: stdout, stderr and exit code of the mix format
subprocess. -/
structure MixFormatResult where
  stdout : String
  stderr : String
  exit_code : Int
deriving DecidableEq

namespace MixFormatResult

/-- is_successful: the exit code is 0. -/
def is_successful (r : MixFormatResult) : Bool :=
  r.exit_code == 0

/-- error: set in the constructor to MixFormatError(stderr) exactly when
the result is not successful, otherwise None. -/
def error (r : MixFormatResult) : Option MixFormatError :=
  if r.is_successful then none else some ⟨r.stderr⟩

/-- pretty_text: the captured stdout. -/
def pretty_text (r : MixFormatResult) : String :=
  r.stdout

/-- is_changed: trimmed source differs from the source AND trimmed source
differs from the trimmed stdout. -/
def is_changed (r : MixFormatResult) (source_text : String) : Bool :=
  let trimmed_pretty := Utils.trim_trailing_ws_and_lines r.pretty_text
  let trimmed_source := Utils.trim_trailing_ws_and_lines source_text
  (trimmed_source != source_text) && (trimmed_source != trimmed_pretty)

/-- is_equal: the negation of is_changed. -/
def is_equal (r : MixFormatResult) (text : String) : Bool :=
  !(r.is_changed text)

end MixFormatResult

/-- os.path.dirname on a normalized absolute path in the innermost-first
component representation: drop the innermost component. -/
def os_path_dirname (p : List String) : List String :=
  p.tail

namespace ElixirFormatter

/-- find_project: walk from the given path upward; stop with None at the
filesystem root (the empty component list), otherwise return the first
directory containing mix.exs (the fs parameter is that containment test);
the recursive call is on os.path.dirname of the path, which in the
component representation is the tail of the list. -/
def find_project (fs : List String → Bool) : List String → Option (List String)
  | [] => none
  | c :: rest =>
    if fs (c :: rest) then some (c :: rest)
    else find_project fs rest

end ElixirFormatter

/-- Step-counting variant of find_project used to express termination:
none means the step budget ran out before the function returned. -/
def find_project_fuel (fs : List String → Bool) : Nat → List String → Option (Option (List String))
  | 0, _ => none
  | _ + 1, [] => some none
  | fuel + 1, c :: rest =>
    if fs (c :: rest) then some (some (c :: rest))
    else find_project_fuel fs fuel rest

/-- Does the haystack start with the needle (character lists). -/
def matchesAtStart : List Char → List Char → Bool
  | [], _ => true
  | _ :: _, [] => false
  | a :: as, b :: bs => (a == b) && matchesAtStart as bs

/-- The Python infix-containment test NEEDLE in HAYSTACK on character
lists. -/
def containsSeq (needle : List Char) : List Char → Bool
  | [] => needle.isEmpty
  | c :: t => matchesAtStart needle (c :: t) || containsSeq needle t

/-- The Python infix-containment test NEEDLE in HAYSTACK on strings. -/
def strIn (needle hay : String) : Bool :=
  containsSeq needle.data hay.data

/-- os.pathsep on POSIX platforms. -/
def os_pathsep : String := ":"

/-- The try-block of mix_format and run_command: read the PATH entry of
the env dictionary from the editor settings, read PATH from the copied
OS environment, and join them; the settings env being None, not a
dictionary, lacking a PATH key or holding a non-string (and a missing OS
PATH) all raise TypeError, ValueError or KeyError, modelled as the error
case. The settingsEnvPath parameter is some (some p) when settings.get
of env yields a dictionary whose PATH entry is the string p, some none
when that PATH entry is absent or malformed, and none when the env
setting itself is absent or malformed. -/
def env_path_attempt (osEnv : String → Option String)
    (settingsEnvPath : Option (Option String)) : Except Unit String :=
  match settingsEnvPath with
  | none => Except.error ()
  | some none => Except.error ()
  | some (some p) =>
    match osEnv "PATH" with
    | none => Except.error ()
    | some orig => Except.ok (p ++ os_pathsep ++ orig)

/-- The environment handed to the spawned subprocess: a copy of
os.environ whose PATH is prefixed with the settings PATH when the
try-block succeeds, and the untouched copy when it raises. -/
def mix_format_env (osEnv : String → Option String)
    (settingsEnvPath : Option (Option String)) : String → Option String :=
  match env_path_attempt osEnv settingsEnvPath with
  | Except.ok newPath => fun k => if k = "PATH" then some newPath else osEnv k
  | Except.error _ => osEnv

namespace ElixirFormatter

/-- check_blacklisted_in_config: None when the project root holds no
.formatter.exs file; otherwise true iff the stdout of the elixir check
script contains the marker line reporting that the file is not covered
by the :inputs patterns. The hasFormatterExs flag is the os.path.isfile
test, and checkStdout is the stdout of the spawned script. -/
def check_blacklisted_in_config (hasFormatterExs : Bool)
    (checkStdout : String) : Option Bool :=
  if !hasFormatterExs then none
  else some (strIn "Check result: false" checkStdout)

end ElixirFormatter

/-- Python truthiness of the value returned by
check_blacklisted_in_config: None and False are falsy. -/
def pyTruthy : Option Bool → Bool
  | none => false
  | some b => b

/-- The slice of Sublime view state the plugin touches: the buffer text
and the viewport position, plus one abstract field standing for all the
view state the plugin never writes. -/
structure View where
  buffer : String
  viewport : Int × Int
  otherState : Int
deriving DecidableEq

namespace Utils

/-- Utils.replace: view.replace mutates the buffer; the editor may move
the viewport as a side effect of the mutation, modelled by the
uncontrolled scroll parameter. -/
def replace (v : View) (text : String) (scroll : Int × Int) : View :=
  { v with buffer := text, viewport := scroll }

/-- Utils.restore_position: set the viewport to the origin and then to
the previously recorded position. -/
def restore_position (v : View) (previous_position : Int × Int) : View :=
  { { v with viewport := (0, 0) } with viewport := previous_position }

end Utils

/-- How a call of ElixirFormatter.run ended. -/
inductive RunOutcome where
  /-- Early return: the file is excluded by the project configuration. -/
  | skipped
  /-- Early return: is_equal held, no formatting needed. -/
  | unchanged
  /-- The buffer was replaced with the formatter stdout. -/
  | formatted
  /-- The failure branch reported the parsed error. -/
  | failed
  /-- The failure branch aborted with an AttributeError because the
  stderr did not match SYNTAX_ERROR_RE. -/
  | raised
deriving DecidableEq

/-- The observable effects of one call of ElixirFormatter.run: the final
view, how the call ended, whether the mix format subprocess was spawned,
whether the detect_indentation command ran, the argument of the
goto_line command when it ran, and the status message when one was set. -/
structure RunEffects where
  view : View
  outcome : RunOutcome
  spawned : Bool
  detectIndentation : Bool
  gotoLine : Option Int
  statusMsg : Option String
deriving DecidableEq

namespace ElixirFormatter

/-- ElixirFormatter.run. The parameters stand for the ambient state the
Python code reads: fs and hasF are the mix.exs and .formatter.exs
containment tests on directories, checkStdout is the stdout of the
elixir check script, mixFormat maps the text piped to the mix format
subprocess to its result, and scroll is wherever the editor leaves the
viewport after the buffer mutation. -/
def run (fs hasF : List String → Bool) (checkStdout : String)
    (mixFormat : String → MixFormatResult) (scroll : Int × Int)
    (v : View) (file_name : List String) : RunEffects :=
  let project_root_with_mix := ElixirFormatter.find_project fs file_name
  let project_root := project_root_with_mix.getD (os_path_dirname file_name)
  let blacklisted :=
    ElixirFormatter.check_blacklisted_in_config (hasF project_root) checkStdout
  if pyTruthy blacklisted then
    { view := v, outcome := RunOutcome.skipped, spawned := false,
      detectIndentation := false, gotoLine := none, statusMsg := none }
  else
    let source_text := v.buffer
    let result := mixFormat source_text
    if result.is_successful then
      if result.is_equal source_text then
        { view := v, outcome := RunOutcome.unchanged, spawned := true,
          detectIndentation := false, gotoLine := none, statusMsg := none }
      else
        let previous_position := v.viewport
        let v1 := Utils.replace v result.pretty_text scroll
        let v2 := Utils.restore_position v1 previous_position
        { view := v2, outcome := RunOutcome.formatted, spawned := true,
          detectIndentation := true, gotoLine := none,
          statusMsg := some "file formatted" }
    else
      let e : MixFormatError := ⟨result.stderr⟩
      match e.matchesRE with
      | some _ =>
        { view := v, outcome := RunOutcome.failed, spawned := true,
          detectIndentation := false, gotoLine := e.line,
          statusMsg := e.status_message }
      | none =>
        { view := v, outcome := RunOutcome.raised, spawned := true,
          detectIndentation := false, gotoLine := none, statusMsg := none }

end ElixirFormatter

/-- Suffix of a character list strictly after the last occurrence of c,
or the whole list when c does not occur. -/
def afterLast (c : Char) : List Char → List Char
  | [] => []
  | x :: t =>
    if t.contains c then afterLast c t
    else if x == c then t
    else x :: t

/-- os.path.splitext(file_name)[1][1:]: the extension of the basename
without its dot, where splitext ignores the leading dots of the
basename. -/
def extOf (file_name : String) : String :=
  let base := afterLast '/' file_name.data
  let rest := base.dropWhile (fun c => c == '.')
  if rest.contains '.' then (afterLast '.' rest).asString else ""

/-- Conversion of a path string to the innermost-first component
representation used by find_project. -/
def toPathRepr (s : String) : List String :=
  ((s.splitOn "/").filter (fun c => c ≠ "")).reverse

/-- ElixirFormatterFormatFileCommand.run: invoke the formatting pipeline
exactly when the extension of the file is ex or exs or the language
setting of the view contains the substring Elixir; stxSetting is that
setting. -/
def ElixirFormatterFormatFileCommand_run (fs hasF : List String → Bool)
    (checkStdout : String) (mixFormat : String → MixFormatResult)
    (scroll : Int × Int) (v : View) (file_name : String)
    (stxSetting : String) : Option RunEffects :=
  let extension := extOf file_name
  if ["ex", "exs"].contains extension || strIn "Elixir" stxSetting then
    some (ElixirFormatter.run fs hasF checkStdout mixFormat scroll v
      (toPathRepr file_name))
  else none

/-- ElixirFormatterEventListeners.on_pre_save: every pre-save event runs
the format-file command on the saved view, unconditionally. -/
def ElixirFormatterEventListeners_on_pre_save (fs hasF : List String → Bool)
    (checkStdout : String) (mixFormat : String → MixFormatResult)
    (scroll : Int × Int) (v : View) (file_name : String)
    (stxSetting : String) : Option RunEffects :=
  ElixirFormatterFormatFileCommand_run fs hasF checkStdout mixFormat scroll v
    file_name stxSetting

lemma matchesAtStart_iff (n : List Char) : ∀ h : List Char,
    matchesAtStart n h = true ↔ ∃ t, h = n ++ t := by
  induction n with
  | nil => intro h; simp [matchesAtStart]
  | cons a as ih =>
    intro h
    cases h with
    | nil => simp [matchesAtStart]
    | cons b bs =>
      simp only [matchesAtStart, Bool.and_eq_true, beq_iff_eq, ih,
        List.cons_append, List.cons.injEq]
      constructor
      · rintro ⟨rfl, t, rfl⟩; exact ⟨t, rfl, rfl⟩
      · rintro ⟨t, rfl, rfl⟩; exact ⟨rfl, t, rfl⟩

lemma containsSeq_iff (n h : List Char) :
    containsSeq n h = true ↔ ∃ pre post, h = pre ++ n ++ post := by
  induction h with
  | nil =>
    simp only [containsSeq, List.isEmpty_iff]
    constructor
    · rintro rfl; exact ⟨[], [], rfl⟩
    · rintro ⟨pre, post, hp⟩
      rcases List.append_eq_nil.1 hp.symm with ⟨h1, h2⟩
      exact (List.append_eq_nil.1 h1).2
  | cons c t ih =>
    simp only [containsSeq, Bool.or_eq_true, matchesAtStart_iff, ih]
    constructor
    · rintro (⟨t', ht⟩ | ⟨pre, post, rfl⟩)
      · exact ⟨[], t', by simp [ht]⟩
      · exact ⟨c :: pre, post, by simp⟩
    · rintro ⟨pre, post, hp⟩
      cases pre with
      | nil => exact Or.inl ⟨post, by rw [List.nil_append] at hp; exact hp⟩
      | cons a as =>
        rcases hp with ⟨rfl, ht⟩
        exact Or.inr ⟨as, post, by simp⟩

lemma strIn_iff (n h : String) :
    strIn n h = true ↔ ∃ pre post, h.data = pre ++ n.data ++ post :=
  containsSeq_iff n.data h.data

lemma find_project_none_iff (fs : List String → Bool) (p : List String) :
    ElixirFormatter.find_project fs p = none ↔
      ∀ r, r <:+ p → r ≠ [] → fs r = false := by
  induction p with
  | nil =>
    simp only [ElixirFormatter.find_project, true_iff]
    intro r hr hne
    rw [List.suffix_nil] at hr
    exact absurd hr hne
  | cons c t ih =>
    by_cases h : fs (c :: t) = true
    · rw [show ElixirFormatter.find_project fs (c :: t) = some (c :: t) by
        simp [ElixirFormatter.find_project, h]]
      constructor
      · intro habs
        exact absurd habs (by simp)
      · intro hall
        have hx := hall (c :: t) (List.suffix_refl _) (by simp)
        rw [h] at hx
        exact absurd hx (by simp)
    · have h' : fs (c :: t) = false := by
        cases hb : fs (c :: t) with
        | true => exact absurd hb h
        | false => rfl
      rw [show ElixirFormatter.find_project fs (c :: t) =
            ElixirFormatter.find_project fs t by
          simp [ElixirFormatter.find_project, h'], ih]
      constructor
      · intro hall r hr hne
        rcases List.suffix_cons_iff.1 hr with rfl | hr'
        · exact h'
        · exact hall r hr' hne
      · intro hall r hr hne
        exact hall r (List.suffix_cons_iff.2 (Or.inr hr)) hne

lemma find_project_some_iff (fs : List String → Bool) (p q : List String) :
    ElixirFormatter.find_project fs p = some q ↔
      q ≠ [] ∧ q <:+ p ∧ fs q = true ∧
        ∀ r, r <:+ p → r ≠ [] → fs r = true → r.length ≤ q.length := by
  induction p with
  | nil =>
    constructor
    · intro habs
      simp [ElixirFormatter.find_project] at habs
    · rintro ⟨hne, hsuf, _⟩
      rw [List.suffix_nil] at hsuf
      exact absurd hsuf hne
  | cons c t ih =>
    by_cases h : fs (c :: t) = true
    · rw [show ElixirFormatter.find_project fs (c :: t) = some (c :: t) by
        simp [ElixirFormatter.find_project, h]]
      constructor
      · intro hq
        have hq' : c :: t = q := Option.some.inj hq
        subst hq'
        exact ⟨by simp, List.suffix_refl _, h,
          fun r hr _ _ => hr.length_le⟩
      · rintro ⟨hne, hsuf, hq, hmax⟩
        have hlen : (c :: t).length ≤ q.length :=
          hmax (c :: t) (List.suffix_refl _) (by simp) h
        exact congrArg some
          (hsuf.eq_of_length (Nat.le_antisymm hsuf.length_le hlen)).symm
    · have h' : fs (c :: t) = false := by
        cases hb : fs (c :: t) with
        | true => exact absurd hb h
        | false => rfl
      rw [show ElixirFormatter.find_project fs (c :: t) =
            ElixirFormatter.find_project fs t by
          simp [ElixirFormatter.find_project, h'], ih]
      constructor
      · rintro ⟨hne, hsuf, hq, hmax⟩
        refine ⟨hne, List.suffix_cons_iff.2 (Or.inr hsuf), hq, ?_⟩
        intro r hr hrne hfr
        rcases List.suffix_cons_iff.1 hr with rfl | hr'
        · rw [h'] at hfr; exact absurd hfr (by simp)
        · exact hmax r hr' hrne hfr
      · rintro ⟨hne, hsuf, hq, hmax⟩
        rcases List.suffix_cons_iff.1 hsuf with rfl | hs
        · rw [h'] at hq; exact absurd hq (by simp)
        · exact ⟨hne, hs, hq, fun r hr hrne hfr =>
            hmax r (List.suffix_cons_iff.2 (Or.inr hr)) hrne hfr⟩

/-- Claim C2: for every path, find_project returns the nearest ancestor
directory (the path itself or a parent, walking upward one directory at
a time) containing a file named mix.exs, and returns None when no such
directory exists before the filesystem root is reached.  In the
innermost-first component representation the ancestors of a path are
exactly its suffixes, the root is the empty list, and the nearest
ancestor containing mix.exs is the longest suffix satisfying fs. -/
theorem C2_find_project_nearest_ancestor (fs : List String → Bool)
    (p : List String) :
    (∀ q, ElixirFormatter.find_project fs p = some q ↔
      q ≠ [] ∧ q <:+ p ∧ fs q = true ∧
        ∀ r, r <:+ p → r ≠ [] → fs r = true → r.length ≤ q.length) ∧
    (ElixirFormatter.find_project fs p = none ↔
      ∀ r, r <:+ p → r ≠ [] → fs r = false) :=
  ⟨fun q => find_project_some_iff fs p q, find_project_none_iff fs p⟩

/-- Closed instance of C2 at a concrete filesystem and path. -/
theorem C2_witness :
    ElixirFormatter.find_project (fun d => d == ["lib", "proj"])
      ["a.ex", "lib", "proj"] = some ["lib", "proj"] :=
  ((C2_find_project_nearest_ancestor (fun d => d == ["lib", "proj"])
      ["a.ex", "lib", "proj"]).1 ["lib", "proj"]).2
    ⟨by decide, ⟨["a.ex"], rfl⟩, by decide, fun r _ _ hfs => by
      have hr : r = ["lib", "proj"] := by simpa using hfs
      simp [hr]⟩

/-- Claim C10: find_project terminates on every path: dirname strictly
shortens a non-root path, and a step budget of the length of the path
plus one suffices for the step-counting variant to return the value of
find_project instead of running out. -/
theorem C10_find_project_terminates :
    (∀ p : List String, p ≠ [] → (os_path_dirname p).length < p.length) ∧
    (∀ (fs : List String → Bool) (p : List String) (fuel : Nat),
      p.length < fuel →
      find_project_fuel fs fuel p = some (ElixirFormatter.find_project fs p)) := by
  constructor
  · intro p hp
    cases p with
    | nil => exact absurd rfl hp
    | cons c t => simp [os_path_dirname]
  · intro fs p
    induction p with
    | nil =>
      intro fuel hf
      cases fuel with
      | zero => exact absurd hf (by omega)
      | succ n => simp [find_project_fuel, ElixirFormatter.find_project]
    | cons c t ih =>
      intro fuel hf
      cases fuel with
      | zero => exact absurd hf (by omega)
      | succ n =>
        simp only [find_project_fuel, ElixirFormatter.find_project]
        by_cases h : fs (c :: t) = true
        · simp [h]
        · have h' : fs (c :: t) = false := by
            cases hb : fs (c :: t) with
            | true => exact absurd hb h
            | false => rfl
          have hlt : t.length < n := by
            simp only [List.length_cons] at hf; omega
          simp [h', ih n hlt]

/-- Closed instance of C10 at a concrete path and budget. -/
theorem C10_witness :
    ((["a", "b"] : List String) ≠ [] ∧
      (os_path_dirname ["a", "b"]).length < (["a", "b"] : List String).length) ∧
    ((["a", "b"] : List String).length < 3 ∧
      find_project_fuel (fun _ => false) 3 ["a", "b"] =
        some (ElixirFormatter.find_project (fun _ => false) ["a", "b"])) :=
  ⟨⟨by decide, C10_find_project_terminates.1 ["a", "b"] (by decide)⟩,
   ⟨by decide, C10_find_project_terminates.2 (fun _ => false) ["a", "b"] 3 (by decide)⟩⟩

/-- Claim C3: a MixFormatResult is successful iff the exit code is 0;
every unsuccessful result carries an error built from the stderr text
whose full_message is the whole text matched by SYNTAX_ERROR_RE, whose
exception, line (as an integer) and reason are the corresponding capture
groups, and whose status_message is exception, a dash, and reason; every
successful result carries no error. -/
theorem C3_result_error_parsing (stdout stderr : String) (ec : Int) :
    ((MixFormatResult.mk stdout stderr ec).is_successful = true ↔ ec = 0) ∧
    (ec = 0 → (MixFormatResult.mk stdout stderr ec).error = none) ∧
    (ec ≠ 0 →
      (MixFormatResult.mk stdout stderr ec).error =
        some (MixFormatError.mk stderr) ∧
      ∀ m, SYNTAX_ERROR_RE_search stderr = some m →
        (MixFormatError.mk stderr).full_message = some m.g0 ∧
        (MixFormatError.mk stderr).exception = some m.g1 ∧
        (MixFormatError.mk stderr).line = some ((digitsToNat m.g3 : Int)) ∧
        (MixFormatError.mk stderr).reason = some m.g4 ∧
        (MixFormatError.mk stderr).status_message =
          some (m.g1 ++ " - " ++ m.g4)) := by
  refine ⟨by simp [MixFormatResult.is_successful], ?_, ?_⟩
  · intro h
    simp [MixFormatResult.error, MixFormatResult.is_successful, h]
  · intro h
    constructor
    · simp [MixFormatResult.error, MixFormatResult.is_successful, h]
    · intro m hm
      simp [MixFormatError.full_message, MixFormatError.exception,
        MixFormatError.line, MixFormatError.reason,
        MixFormatError.status_message, MixFormatError.matchesRE, hm]

/-- Closed instance of C3 at a concrete unsuccessful result. -/
theorem C3_witness :
    ((1 : Int) ≠ 0) ∧
    (SYNTAX_ERROR_RE_search "** (E) f:12: boom" =
      some ⟨"** (E) f:12: boom", "E", "f", "12", "boom"⟩) ∧
    (MixFormatResult.mk "" "** (E) f:12: boom" 1).error =
      some (MixFormatError.mk "** (E) f:12: boom") ∧
    (MixFormatError.mk "** (E) f:12: boom").line = some 12 ∧
    (MixFormatError.mk "** (E) f:12: boom").status_message =
      some "E - boom" := by
  have h := (C3_result_error_parsing "" "** (E) f:12: boom" 1).2.2 (by decide)
  have hm := h.2 ⟨"** (E) f:12: boom", "E", "f", "12", "boom"⟩ (by decide)
  refine ⟨by decide, by decide, h.1, ?_, ?_⟩
  · rw [hm.2.2.1]; decide
  · rw [hm.2.2.2.2]; decide

/-- Claim C9: for an unsuccessful result whose stderr has no match of
SYNTAX_ERROR_RE, the error fields are undefined (none, modelling the
AttributeError) and the failure branch of run aborts instead of
reporting; the fields are defined exactly when the search succeeds. -/
theorem C9_error_fields_need_match :
    (SYNTAX_ERROR_RE_search "mix boom" = none) ∧
    ((MixFormatResult.mk "" "mix boom" 1).is_successful = false) ∧
    ((MixFormatResult.mk "" "mix boom" 1).error =
      some (MixFormatError.mk "mix boom")) ∧
    ((MixFormatError.mk "mix boom").full_message = none ∧
      (MixFormatError.mk "mix boom").line = none ∧
      (MixFormatError.mk "mix boom").reason = none) ∧
    ((ElixirFormatter.run (fun _ => false) (fun _ => false) ""
        (fun _ => MixFormatResult.mk "" "mix boom" 1) (0, 0)
        (View.mk "x" (0, 0) 0) ["a.ex"]).outcome = RunOutcome.raised) ∧
    (∀ text : String,
      ((MixFormatError.mk text).full_message.isSome
          ↔ (SYNTAX_ERROR_RE_search text).isSome) ∧
      ((MixFormatError.mk text).line.isSome
          ↔ (SYNTAX_ERROR_RE_search text).isSome) ∧
      ((MixFormatError.mk text).reason.isSome
          ↔ (SYNTAX_ERROR_RE_search text).isSome)) := by
  refine ⟨by decide, by decide, by decide, by decide, by decide, ?_⟩
  intro text
  refine ⟨?_, ?_, ?_⟩ <;>
    simp [MixFormatError.full_message, MixFormatError.line,
      MixFormatError.reason, MixFormatError.matchesRE]

lemma is_equal_trim_eq (r : MixFormatResult) (s : String) :
    r.is_equal s =
      ((Utils.trim_trailing_ws_and_lines s == s) ||
        (Utils.trim_trailing_ws_and_lines s ==
          Utils.trim_trailing_ws_and_lines r.pretty_text)) := by
  simp [MixFormatResult.is_equal, MixFormatResult.is_changed, bne,
    Bool.not_and, Bool.not_not]

/-- Refutation of claim C1 as stated: a successful result whose stdout
differs from the buffer text is nonetheless treated as equal (the
trimmed source equals the source, so is_changed is false) and run
leaves the buffer untouched. -/
theorem C1_counterexample :
    (MixFormatResult.mk "b\n" "" 0).is_successful = true ∧
    (MixFormatResult.mk "b\n" "" 0).pretty_text ≠ "a" ∧
    (MixFormatResult.mk "b\n" "" 0).is_equal "a" = true ∧
    (ElixirFormatter.run (fun _ => false) (fun _ => false) ""
        (fun _ => MixFormatResult.mk "b\n" "" 0) (0, 0)
        (View.mk "a" (0, 0) 0) ["a.ex"]) =
      { view := View.mk "a" (0, 0) 0, outcome := RunOutcome.unchanged,
        spawned := true, detectIndentation := false, gotoLine := none,
        statusMsg := none } := by decide

/-- Claim C1 amended: for every successful formatter invocation, run
replaces the buffer with the formatter stdout exactly when is_changed
holds, that is, when the source text differs from its
trailing-whitespace-trimmed form and the trimmed source differs from
the trimmed stdout; it leaves the buffer untouched exactly otherwise;
equivalently, is_equal on the source text holds iff trimming trailing
whitespace leaves the source unchanged or the trimmed source equals the
trimmed stdout. -/
theorem C1_success_noop_iff_trimmed_equal
    (fs hasF : List String → Bool) (checkStdout : String)
    (mixFormat : String → MixFormatResult) (scroll : Int × Int)
    (v : View) (file_name : List String)
    (hbl : pyTruthy (ElixirFormatter.check_blacklisted_in_config
      (hasF ((ElixirFormatter.find_project fs file_name).getD
        (os_path_dirname file_name))) checkStdout) = false)
    (hok : (mixFormat v.buffer).is_successful = true) :
    ((mixFormat v.buffer).is_changed v.buffer = true →
      (ElixirFormatter.run fs hasF checkStdout mixFormat scroll v
        file_name).outcome = RunOutcome.formatted ∧
      (ElixirFormatter.run fs hasF checkStdout mixFormat scroll v
        file_name).view.buffer = (mixFormat v.buffer).pretty_text) ∧
    ((mixFormat v.buffer).is_changed v.buffer = false →
      (ElixirFormatter.run fs hasF checkStdout mixFormat scroll v
        file_name).outcome = RunOutcome.unchanged ∧
      (ElixirFormatter.run fs hasF checkStdout mixFormat scroll v
        file_name).view = v) ∧
    ((mixFormat v.buffer).is_equal v.buffer =
      ((Utils.trim_trailing_ws_and_lines v.buffer == v.buffer) ||
        (Utils.trim_trailing_ws_and_lines v.buffer ==
          Utils.trim_trailing_ws_and_lines
            (mixFormat v.buffer).pretty_text))) := by
  refine ⟨?_, ?_, is_equal_trim_eq _ _⟩ <;> intro hch <;>
    simp [ElixirFormatter.run, hbl, hok, MixFormatResult.is_equal, hch,
      Utils.replace, Utils.restore_position]

/-- Closed instance of the amended C1 at a concrete changed source. -/
theorem C1_witness :
    pyTruthy (ElixirFormatter.check_blacklisted_in_config
      ((fun _ => false) ((ElixirFormatter.find_project (fun _ => false)
        ["a.ex"]).getD (os_path_dirname ["a.ex"]))) "") = false ∧
    (MixFormatResult.mk "b\n" "" 0).is_successful = true ∧
    (MixFormatResult.mk "b\n" "" 0).is_changed "a\n" = true ∧
    (ElixirFormatter.run (fun _ => false) (fun _ => false) ""
        (fun _ => MixFormatResult.mk "b\n" "" 0) (3, 4)
        (View.mk "a\n" (1, 2) 5) ["a.ex"]).outcome = RunOutcome.formatted ∧
    (ElixirFormatter.run (fun _ => false) (fun _ => false) ""
        (fun _ => MixFormatResult.mk "b\n" "" 0) (3, 4)
        (View.mk "a\n" (1, 2) 5) ["a.ex"]).view.buffer =
      (MixFormatResult.mk "b\n" "" 0).pretty_text := by
  refine ⟨by decide, by decide, by decide, ?_, ?_⟩
  · exact ((C1_success_noop_iff_trimmed_equal (fun _ => false)
      (fun _ => false) "" (fun _ => MixFormatResult.mk "b\n" "" 0) (3, 4)
      (View.mk "a\n" (1, 2) 5) ["a.ex"] (by decide) (by decide)).1
        (by decide)).1
  · exact ((C1_success_noop_iff_trimmed_equal (fun _ => false)
      (fun _ => false) "" (fun _ => MixFormatResult.mk "b\n" "" 0) (3, 4)
      (View.mk "a\n" (1, 2) 5) ["a.ex"] (by decide) (by decide)).1
        (by decide)).2

/-- Claim C4: for every unsuccessful formatter invocation run leaves the
whole view unchanged: the failure branch never replaces the buffer and
never reruns indentation detection, and when the stderr matches
SYNTAX_ERROR_RE it only reports the parsed error, navigating to the
reported line and setting the parsed status message. -/
theorem C4_failure_preserves_view
    (fs hasF : List String → Bool) (checkStdout : String)
    (mixFormat : String → MixFormatResult) (scroll : Int × Int)
    (v : View) (file_name : List String)
    (hbl : pyTruthy (ElixirFormatter.check_blacklisted_in_config
      (hasF ((ElixirFormatter.find_project fs file_name).getD
        (os_path_dirname file_name))) checkStdout) = false)
    (hfail : (mixFormat v.buffer).is_successful = false) :
    (ElixirFormatter.run fs hasF checkStdout mixFormat scroll v
      file_name).view = v ∧
    (ElixirFormatter.run fs hasF checkStdout mixFormat scroll v
      file_name).outcome ≠ RunOutcome.formatted ∧
    (ElixirFormatter.run fs hasF checkStdout mixFormat scroll v
      file_name).detectIndentation = false ∧
    (∀ m, SYNTAX_ERROR_RE_search (mixFormat v.buffer).stderr = some m →
      (ElixirFormatter.run fs hasF checkStdout mixFormat scroll v
        file_name).outcome = RunOutcome.failed ∧
      (ElixirFormatter.run fs hasF checkStdout mixFormat scroll v
        file_name).gotoLine = some ((digitsToNat m.g3 : Int)) ∧
      (ElixirFormatter.run fs hasF checkStdout mixFormat scroll v
        file_name).statusMsg = some (m.g1 ++ " - " ++ m.g4)) := by
  cases hsearch : SYNTAX_ERROR_RE_search (mixFormat v.buffer).stderr with
  | none =>
    refine ⟨?_, ?_, ?_, ?_⟩ <;>
      simp [ElixirFormatter.run, hbl, hfail, MixFormatError.matchesRE,
        hsearch]
  | some m0 =>
    refine ⟨?_, ?_, ?_, ?_⟩ <;>
      simp [ElixirFormatter.run, hbl, hfail, MixFormatError.matchesRE,
        hsearch, MixFormatError.line, MixFormatError.status_message]

/-- Closed instance of C4 at a concrete failing result. -/
theorem C4_witness :
    pyTruthy (ElixirFormatter.check_blacklisted_in_config
      ((fun _ => false) ((ElixirFormatter.find_project (fun _ => false)
        ["a.ex"]).getD (os_path_dirname ["a.ex"]))) "") = false ∧
    (MixFormatResult.mk "" "** (E) f:12: boom" 1).is_successful = false ∧
    (ElixirFormatter.run (fun _ => false) (fun _ => false) ""
        (fun _ => MixFormatResult.mk "" "** (E) f:12: boom" 1) (0, 0)
        (View.mk "src" (0, 0) 7) ["a.ex"]).view = View.mk "src" (0, 0) 7 ∧
    (ElixirFormatter.run (fun _ => false) (fun _ => false) ""
        (fun _ => MixFormatResult.mk "" "** (E) f:12: boom" 1) (0, 0)
        (View.mk "src" (0, 0) 7) ["a.ex"]).outcome = RunOutcome.failed := by
  refine ⟨by decide, by decide, ?_, by decide⟩
  exact (C4_failure_preserves_view (fun _ => false) (fun _ => false) ""
    (fun _ => MixFormatResult.mk "" "** (E) f:12: boom" 1) (0, 0)
    (View.mk "src" (0, 0) 7) ["a.ex"] (by decide) (by decide)).1

/-- Claim C5: when the project root holds a .formatter.exs and the check
script stdout carries the marker that the file is outside the :inputs
patterns, run returns early: the skip outcome, no subprocess spawned,
view untouched; and when the project root holds no .formatter.exs the
file is never treated as excluded. -/
theorem C5_blacklist_skips
    (fs hasF : List String → Bool) (checkStdout : String)
    (mixFormat : String → MixFormatResult) (scroll : Int × Int)
    (v : View) (file_name : List String) :
    (hasF ((ElixirFormatter.find_project fs file_name).getD
        (os_path_dirname file_name)) = true →
      strIn "Check result: false" checkStdout = true →
      ElixirFormatter.run fs hasF checkStdout mixFormat scroll v file_name =
        { view := v, outcome := RunOutcome.skipped, spawned := false,
          detectIndentation := false, gotoLine := none,
          statusMsg := none }) ∧
    (hasF ((ElixirFormatter.find_project fs file_name).getD
        (os_path_dirname file_name)) = false →
      (ElixirFormatter.run fs hasF checkStdout mixFormat scroll v
        file_name).outcome ≠ RunOutcome.skipped) := by
  constructor
  · intro h1 h2
    simp [ElixirFormatter.run, ElixirFormatter.check_blacklisted_in_config,
      h1, h2, pyTruthy]
  · intro h1
    simp only [ElixirFormatter.run, ElixirFormatter.check_blacklisted_in_config,
      h1, Bool.not_false, if_pos, pyTruthy]
    split
    · simp_all
    · split
      · split <;> simp
      · split <;> simp

/-- Closed instance of C5 with an excluded file. -/
theorem C5_witness :
    ((fun _ => true) ((ElixirFormatter.find_project (fun _ => false)
        ["a.ex"]).getD (os_path_dirname ["a.ex"])) : Bool) = true ∧
    strIn "Check result: false" "Check result: false\n" = true ∧
    ElixirFormatter.run (fun _ => false) (fun _ => true)
        "Check result: false\n" (fun _ => MixFormatResult.mk "b\n" "" 0)
        (0, 0) (View.mk "a\n" (0, 0) 3) ["a.ex"] =
      { view := View.mk "a\n" (0, 0) 3, outcome := RunOutcome.skipped,
        spawned := false, detectIndentation := false, gotoLine := none,
        statusMsg := none } := by
  refine ⟨by decide, by decide, ?_⟩
  exact (C5_blacklist_skips (fun _ => false) (fun _ => true)
    "Check result: false\n" (fun _ => MixFormatResult.mk "b\n" "" 0)
    (0, 0) (View.mk "a\n" (0, 0) 3) ["a.ex"]).1 (by decide) (by decide)

/-- Claim C6: after every successful buffer replacement run restores the
viewport to the position recorded right before the replacement (whatever
scroll position the editor left after the mutation), reruns indentation
detection, sets the formatted status message, and leaves every other
piece of view state untouched. -/
theorem C6_viewport_restored
    (fs hasF : List String → Bool) (checkStdout : String)
    (mixFormat : String → MixFormatResult) (scroll : Int × Int)
    (v : View) (file_name : List String)
    (hbl : pyTruthy (ElixirFormatter.check_blacklisted_in_config
      (hasF ((ElixirFormatter.find_project fs file_name).getD
        (os_path_dirname file_name))) checkStdout) = false)
    (hok : (mixFormat v.buffer).is_successful = true)
    (hch : (mixFormat v.buffer).is_changed v.buffer = true) :
    ElixirFormatter.run fs hasF checkStdout mixFormat scroll v file_name =
      { view := { buffer := (mixFormat v.buffer).pretty_text,
                  viewport := v.viewport, otherState := v.otherState },
        outcome := RunOutcome.formatted, spawned := true,
        detectIndentation := true, gotoLine := none,
        statusMsg := some "file formatted" } := by
  simp [ElixirFormatter.run, hbl, hok, MixFormatResult.is_equal, hch,
    Utils.replace, Utils.restore_position]

/-- Closed instance of C6 at a concrete changed source. -/
theorem C6_witness :
    pyTruthy (ElixirFormatter.check_blacklisted_in_config
      ((fun _ => false) ((ElixirFormatter.find_project (fun _ => false)
        ["a.ex"]).getD (os_path_dirname ["a.ex"]))) "") = false ∧
    (MixFormatResult.mk "b\n" "" 0).is_successful = true ∧
    (MixFormatResult.mk "b\n" "" 0).is_changed "a\n" = true ∧
    ElixirFormatter.run (fun _ => false) (fun _ => false) ""
        (fun _ => MixFormatResult.mk "b\n" "" 0) (9, 9)
        (View.mk "a\n" (1, 2) 5) ["a.ex"] =
      { view := { buffer := "b\n", viewport := (1, 2), otherState := 5 },
        outcome := RunOutcome.formatted, spawned := true,
        detectIndentation := true, gotoLine := none,
        statusMsg := some "file formatted" } := by
  refine ⟨by decide, by decide, by decide, ?_⟩
  exact C6_viewport_restored (fun _ => false) (fun _ => false) ""
    (fun _ => MixFormatResult.mk "b\n" "" 0) (9, 9)
    (View.mk "a\n" (1, 2) 5) ["a.ex"] (by decide) (by decide) (by decide)

lemma trigger_cond_iff (file_name lang : String) :
    (["ex", "exs"].contains (extOf file_name) || strIn "Elixir" lang) = true ↔
      (extOf file_name = "ex" ∨ extOf file_name = "exs" ∨
        ∃ pre post, lang.data = pre ++ "Elixir".data ++ post) := by
  simp [strIn_iff, or_assoc, List.contains]

/-- Claim C7: every pre-save event triggers the format-file command, and
the command invokes the formatting pipeline iff the extension of the
saved file is ex or exs or the language setting of the view contains the
substring Elixir; for every other file the save causes no formatting
action. -/
theorem C7_trigger_condition
    (fs hasF : List String → Bool) (checkStdout : String)
    (mixFormat : String → MixFormatResult) (scroll : Int × Int)
    (v : View) (file_name lang : String) :
    (ElixirFormatterEventListeners_on_pre_save fs hasF checkStdout mixFormat
        scroll v file_name lang =
      ElixirFormatterFormatFileCommand_run fs hasF checkStdout mixFormat
        scroll v file_name lang) ∧
    ((extOf file_name = "ex" ∨ extOf file_name = "exs" ∨
        ∃ pre post, lang.data = pre ++ "Elixir".data ++ post) →
      ElixirFormatterFormatFileCommand_run fs hasF checkStdout mixFormat
          scroll v file_name lang =
        some (ElixirFormatter.run fs hasF checkStdout mixFormat scroll v
          (toPathRepr file_name))) ∧
    (¬(extOf file_name = "ex" ∨ extOf file_name = "exs" ∨
        ∃ pre post, lang.data = pre ++ "Elixir".data ++ post) →
      ElixirFormatterFormatFileCommand_run fs hasF checkStdout mixFormat
          scroll v file_name lang = none) := by
  refine ⟨rfl, ?_, ?_⟩
  · intro hcond
    have hb := (trigger_cond_iff file_name lang).2 hcond
    simp only [ElixirFormatterFormatFileCommand_run]
    rw [hb]
    simp
  · intro hcond
    have hb : (["ex", "exs"].contains (extOf file_name) ||
        strIn "Elixir" lang) = false := by
      cases hx : (["ex", "exs"].contains (extOf file_name) ||
          strIn "Elixir" lang) with
      | true => exact absurd ((trigger_cond_iff file_name lang).1 hx) hcond
      | false => rfl
    simp only [ElixirFormatterFormatFileCommand_run]
    rw [hb]
    simp

/-- Closed instance of C7 at an Elixir file and at a text file. -/
theorem C7_witness :
    (extOf "/p/a.ex" = "ex" ∨ extOf "/p/a.ex" = "exs" ∨
      ∃ pre post, ("Plain" : String).data = pre ++ "Elixir".data ++ post) ∧
    ElixirFormatterFormatFileCommand_run (fun _ => false) (fun _ => false)
        "" (fun _ => MixFormatResult.mk "b\n" "" 0) (0, 0)
        (View.mk "a\n" (0, 0) 0) "/p/a.ex" "Plain" =
      some (ElixirFormatter.run (fun _ => false) (fun _ => false) ""
        (fun _ => MixFormatResult.mk "b\n" "" 0) (0, 0)
        (View.mk "a\n" (0, 0) 0) (toPathRepr "/p/a.ex")) := by
  constructor
  · exact Or.inl (by decide)
  · exact (C7_trigger_condition (fun _ => false) (fun _ => false) ""
      (fun _ => MixFormatResult.mk "b\n" "" 0) (0, 0)
      (View.mk "a\n" (0, 0) 0) "/p/a.ex" "Plain").2.1 (Or.inl (by decide))

/-- Claim C8: the environment handed to the subprocess agrees with the
copied OS environment on every variable other than PATH; PATH becomes
the settings PATH, the path separator, and the original PATH when the
settings provide one and the original exists; and whenever the try-block
raises (settings env absent or malformed, PATH entry absent or
malformed, or no original PATH) the environment is passed through
entirely unchanged. -/
theorem C8_env_patching (osEnv : String → Option String)
    (settingsEnvPath : Option (Option String)) :
    (∀ k, k ≠ "PATH" →
      mix_format_env osEnv settingsEnvPath k = osEnv k) ∧
    (∀ p orig, settingsEnvPath = some (some p) → osEnv "PATH" = some orig →
      mix_format_env osEnv settingsEnvPath "PATH" =
        some (p ++ os_pathsep ++ orig)) ∧
    ((settingsEnvPath = none ∨ settingsEnvPath = some none ∨
        osEnv "PATH" = none) →
      mix_format_env osEnv settingsEnvPath = osEnv) := by
  refine ⟨?_, ?_, ?_⟩
  · intro k hk
    unfold mix_format_env
    cases env_path_attempt osEnv settingsEnvPath with
    | ok newPath => simp [hk]
    | error e => rfl
  · intro p orig hs ho
    subst hs
    unfold mix_format_env env_path_attempt
    simp [ho]
  · intro h
    unfold mix_format_env env_path_attempt
    rcases h with rfl | rfl | ho
    · rfl
    · rfl
    · cases settingsEnvPath with
      | none => rfl
      | some x =>
        cases x with
        | none => rfl
        | some p => simp [ho]

/-- Closed instance of C8 with a settings PATH prepended. -/
theorem C8_witness :
    ("HOME" : String) ≠ "PATH" ∧
    mix_format_env
        (fun k => if k = "PATH" then some "/usr/bin" else some "/home/u")
        (some (some "/opt/elixir/bin")) "HOME" =
      (fun k => if k = "PATH" then some "/usr/bin" else some "/home/u")
        "HOME" ∧
    (some (some "/opt/elixir/bin") : Option (Option String)) =
      some (some "/opt/elixir/bin") ∧
    (fun k => if k = "PATH" then some "/usr/bin" else some "/home/u")
        "PATH" = some "/usr/bin" ∧
    mix_format_env
        (fun k => if k = "PATH" then some "/usr/bin" else some "/home/u")
        (some (some "/opt/elixir/bin")) "PATH" =
      some ("/opt/elixir/bin" ++ os_pathsep ++ "/usr/bin") := by
  refine ⟨by decide, ?_, rfl, by decide, ?_⟩
  · exact (C8_env_patching
      (fun k => if k = "PATH" then some "/usr/bin" else some "/home/u")
      (some (some "/opt/elixir/bin"))).1 "HOME" (by decide)
  · exact (C8_env_patching
      (fun k => if k = "PATH" then some "/usr/bin" else some "/home/u")
      (some (some "/opt/elixir/bin"))).2.1 "/opt/elixir/bin" "/usr/bin"
      rfl (by decide)
